import Mathlib

/-!
The QNode glue layer of turtlebot3_manipulation_gui: a shallow embedding of
`src/turtlebot3_manipulation_gui/src/qnode.cpp`.

* `D` is the type of the C++ `double` values. The code never computes with
  them: it stores, copies and forwards them, and it writes the two literals
  `0.0` (value-initialisation in `resize`, message constructors) and `0.1`.
  The embedding is therefore generic in `D`, asking only for scientific
  literals; concrete inputs are evaluated over the rationals.
* `std::vector` is `List`. The checked accessor `at` raises
  `Exception.out_of_range`. The unchecked write `v[k] = x` is the update of
  element `k` when `k` is below the size; past the end C++ leaves it
  undefined, and the command then ends as `Abort.undefined_behaviour`,
  about which nothing is proved.
* An exception leaves the members of the node and the calls already made as
  they are: the callback yields its outcome with the node it leaves, a
  command yields the calls it made with its outcome.
* The planning library (`MoveGroupInterface`) is outside the repository. It
  is a stub: a record of the answers it gives, and every command yields the
  list of calls it made on it, in order. The spinner threads are not part
  of the embedding.
-/

namespace turtlebot3_manipulation_gui

/-! ## Data model -/

/-- Exceptions raised inside `QNode`: `std::out_of_range`, thrown by `std::vector::at`. -/
inductive Exception where
  | out_of_range
  deriving DecidableEq, Repr

/-- Modelled from the spec: the macro `NUM_OF_JOINT_AND_TOOL` lives in `qnode.hpp`, which is
not among the sources; the joint-angle snapshot of the spec is an "ordered sequence of 5
doubles (joint1..joint4, gripper)". -/
def NUM_OF_JOINT_AND_TOOL : Nat := 5

/-- The fields of `sensor_msgs::JointState` that the code reads. -/
structure JointState (D : Type) where
  name : List String
  position : List D

/-- A `geometry_msgs::Point`. -/
structure Point (D : Type) where
  x : D
  y : D
  z : D
  deriving DecidableEq

/-- A `geometry_msgs::Quaternion`. -/
structure Quaternion (D : Type) where
  x : D
  y : D
  z : D
  w : D
  deriving DecidableEq

/-- A `geometry_msgs::Pose`. -/
structure Pose (D : Type) where
  position : Point D
  orientation : Quaternion D
  deriving DecidableEq

/-- The value of `moveit::planning_interface::MoveItErrorCode`: the `int32 val` of
`moveit_msgs::MoveItErrorCodes`. -/
structure MoveItErrorCode where
  val : Int
  deriving DecidableEq, Repr

/-- The constant `moveit_msgs::MoveItErrorCodes::SUCCESS`. -/
def MoveItErrorCode.SUCCESS : MoveItErrorCode := ⟨1⟩

/-- The member functions of `MoveGroupInterface` through which a client sets goals, plans and
executes, with their arguments. `P` is the type of `MoveGroupInterface::Plan`. -/
inductive Call (D P : Type) where
  | getCurrentState
  | setJointValueTarget (group_variable_values : List D)
  | setGoalTolerance (tolerance : D)
  | setPoseTarget (target : Pose D)
  | plan
  | move
  | execute (plan : P)
  deriving DecidableEq

/-- The stubbed planning library behind one `MoveGroupInterface` pointer: what it answers.
Every command calls `plan` once and `move` at most once, so one answer for each covers all
that a planner can do during a command. -/
structure MoveGroupInterface (D P : Type) where
  /-- What `copyJointGroupPositions` gives for the state that `getCurrentState` returns. -/
  jointGroupPositions : List D
  /-- The pose inside what `getCurrentPose` returns. -/
  currentPose : Pose D
  /-- The error code that `plan` returns. -/
  planCode : MoveItErrorCode
  /-- The plan that `plan` writes into its argument. -/
  planResult : P
  /-- The error code that `move` returns. -/
  moveCode : MoveItErrorCode

/-- The members of `QNode` that the member functions below read or write. -/
structure QNode (D P : Type) where
  move_group_ : MoveGroupInterface D P
  move_group2_ : MoveGroupInterface D P
  present_joint_angle_ : List D
  present_kinematics_position_ : List D

/-! ## Vectors -/

/-- The read `v.at(i)`: the element, or `std::out_of_range` when `i` is not below the size. -/
def vec_at {α : Type} (v : List α) (i : Nat) : Except Exception α :=
  match v[i]? with
  | some x => .ok x
  | none => .error .out_of_range

/-- The write `v.at(i) = x`: the updated vector, or `std::out_of_range`. -/
def vec_at_assign {α : Type} (v : List α) (i : Nat) (x : α) : Except Exception (List α) :=
  if i < v.length then .ok (v.set i x) else .error .out_of_range

/-- The loop `for (int i = lo; i < lo + n; i++) body`, threading the loop state and stopping
at the first exception. -/
def forLoop {σ : Type} (body : Nat → σ → Except Exception σ) : Nat → Nat → σ → Except Exception σ
  | _, 0, s => .ok s
  | lo, n + 1, s =>
    match body lo s with
    | .ok s1 => forLoop body (lo + 1) n s1
    | .error e => .error e

/-! ## Telemetry -/

section Telemetry

variable {D P : Type} [OfScientific D]

/-- The vector `temp_angle` after `resize(NUM_OF_JOINT_AND_TOOL)`: value-initialised doubles. -/
def temp_angle_init : List D := List.replicate NUM_OF_JOINT_AND_TOOL 0.0

/-- One iteration of the loop of `jointStatesCallback` (lines 103 to 107), at index `i`.
The test `!name.compare("joint1")` holds exactly when the name is "joint1"; the position is
read, with `at`, only in the branch of a matching name. -/
def jointStatesBody (msg : JointState D) (i : Nat) (temp_angle : List D) :
    Except Exception (List D) := do
  let name_i ← vec_at msg.name i
  if name_i = "joint1" then do
    let p ← vec_at msg.position i
    vec_at_assign temp_angle 0 p
  else if name_i = "joint2" then do
    let p ← vec_at msg.position i
    vec_at_assign temp_angle 1 p
  else if name_i = "joint3" then do
    let p ← vec_at msg.position i
    vec_at_assign temp_angle 2 p
  else if name_i = "joint4" then do
    let p ← vec_at msg.position i
    vec_at_assign temp_angle 3 p
  else if name_i = "gripper" then do
    let p ← vec_at msg.position i
    vec_at_assign temp_angle 4 p
  else
    pure temp_angle

/-- Lines 98 to 108 of `jointStatesCallback`: the local `temp_angle` when the loop is left.
The loop runs once for each index of `msg->name` (the counter is an `int`; a message is taken
to have fewer than 2^31 names). -/
def jointStatesScan (msg : JointState D) : Except Exception (List D) :=
  forLoop (jointStatesBody msg) 0 msg.name.length temp_angle_init

/-- The callback `QNode::jointStatesCallback`: how it ends, and the node it leaves. An
exception leaves the loop before either member is assigned. -/
def jointStatesCallback (q : QNode D P) (msg : JointState D) :
    Except Exception Unit × QNode D P :=
  match jointStatesScan msg with
  | .error e => (.error e, q)
  | .ok temp_angle =>
    let current_pose := q.move_group_.currentPose
    let temp_position := [current_pose.position.x, current_pose.position.y,
      current_pose.position.z]
    (.ok (), { q with present_joint_angle_ := temp_angle,
                      present_kinematics_position_ := temp_position })

/-- The getter `QNode::getPresentJointAngle`. -/
def getPresentJointAngle (q : QNode D P) : List D := q.present_joint_angle_

/-- The getter `QNode::getPresentKinematicsPosition`. -/
def getPresentKinematicsPosition (q : QNode D P) : List D := q.present_kinematics_position_

end Telemetry

/-! ## Commands -/

/-- How a command ends when it does not return: with an exception, or in the undefined
behaviour of C++ (an unchecked write past the end of a vector), where the program may crash
or do anything else. -/
inductive Abort where
  | threw (e : Exception)
  | undefined_behaviour
  deriving DecidableEq, Repr

/-- A member function that talks to the planning library: from the calls made so far to the
calls made when it ends, with its return value or the way it was cut short. -/
def Cmd (D P α : Type) : Type := List (Call D P) → List (Call D P) × Except Abort α

/-- Sequencing of statements: an exception skips the statements after it and keeps the calls
made before it. -/
def Cmd.bind {D P α β : Type} (x : Cmd D P α) (f : α → Cmd D P β) : Cmd D P β :=
  fun log =>
    match x log with
    | (log1, .ok a) => f a log1
    | (log1, .error e) => (log1, .error e)

instance (D P : Type) : Monad (Cmd D P) where
  pure a := fun log => (log, .ok a)
  bind := Cmd.bind

/-- A call on the planning library, recorded after the calls made before it. -/
def Cmd.call {D P : Type} (c : Call D P) : Cmd D P Unit :=
  fun log => (log ++ [c], .ok ())

/-- An expression that may throw, inside a member function. -/
def Cmd.eval {D P α : Type} (x : Except Exception α) : Cmd D P α :=
  fun log =>
    match x with
    | .ok a => (log, .ok a)
    | .error e => (log, .error (.threw e))

/-- The unchecked write `v[k] = x` of `std::vector::operator[]`: the vector with element `k`
replaced when `k` is below the size, undefined behaviour otherwise. -/
def Cmd.index_assign {D P α : Type} (v : List α) (k : Nat) (x : α) : Cmd D P (List α) :=
  fun log => if k < v.length then (log, .ok (v.set k x)) else (log, .error .undefined_behaviour)

/-- The calls a member function makes and its outcome, started with no call made. -/
def Cmd.run {D P α : Type} (x : Cmd D P α) : List (Call D P) × Except Abort α := x []

section Commands

variable {D P : Type} [OfScientific D]

/-- A default-constructed `geometry_msgs::Pose`: the generated constructor sets every field
to `0.0`. -/
def Pose.init : Pose D := ⟨⟨0.0, 0.0, 0.0⟩, ⟨0.0, 0.0, 0.0, 0.0⟩⟩

/-- The command `QNode::setJointSpacePath` (lines 132 to 162). Both `getCurrentState` calls
are recorded; the positions come from the second. In each assignment the right-hand side
`joint_angle.at(k)` is evaluated, and may throw, before the unchecked write on the left,
which is undefined when the arm group has no element `k`. The plan that `plan` fills and the
code that `move` returns are not used, as in the source. -/
def setJointSpacePath (q : QNode D P) (joint_angle : List D) (path_time : D) : Cmd D P Bool := do
  let _ := path_time
  Cmd.call .getCurrentState
  Cmd.call .getCurrentState
  let joint_group_positions := q.move_group_.jointGroupPositions
  let joint_group_positions ←
    Cmd.index_assign joint_group_positions 0 (← Cmd.eval (vec_at joint_angle 0))
  let joint_group_positions ←
    Cmd.index_assign joint_group_positions 1 (← Cmd.eval (vec_at joint_angle 1))
  let joint_group_positions ←
    Cmd.index_assign joint_group_positions 2 (← Cmd.eval (vec_at joint_angle 2))
  let joint_group_positions ←
    Cmd.index_assign joint_group_positions 3 (← Cmd.eval (vec_at joint_angle 3))
  Cmd.call (.setJointValueTarget joint_group_positions)
  Cmd.call .plan
  let _my_plan := q.move_group_.planResult
  let success := decide (q.move_group_.planCode = MoveItErrorCode.SUCCESS)
  if success = false then
    return false
  Cmd.call .move
  let _ := q.move_group_.moveCode
  return true

/-- The command `QNode::setTaskSpacePath` (lines 164 to 188): `target_pose` starts as a
default-constructed pose and only its position is assigned. -/
def setTaskSpacePath (q : QNode D P) (kinematics_pose : List D) (path_time : D) :
    Cmd D P Bool := do
  let _ := path_time
  Cmd.call (.setGoalTolerance 0.1)
  let target_pose : Pose D := Pose.init
  let target_pose := { target_pose with position.x := ← Cmd.eval (vec_at kinematics_pose 0) }
  let target_pose := { target_pose with position.y := ← Cmd.eval (vec_at kinematics_pose 1) }
  let target_pose := { target_pose with position.z := ← Cmd.eval (vec_at kinematics_pose 2) }
  Cmd.call (.setPoseTarget target_pose)
  Cmd.call .plan
  let _my_plan := q.move_group_.planResult
  let success := decide (q.move_group_.planCode = MoveItErrorCode.SUCCESS)
  if success = false then
    return false
  Cmd.call .move
  let _ := q.move_group_.moveCode
  return true

/-- The command `QNode::setToolControl` (lines 190 to 217); its calls go to `move_group2_`.
The unchecked write of line 205 is undefined when the gripper group has no element 0. -/
def setToolControl (q : QNode D P) (joint_angle : List D) : Cmd D P Bool := do
  Cmd.call .getCurrentState
  Cmd.call .getCurrentState
  let joint_group_positions := q.move_group2_.jointGroupPositions
  let joint_group_positions ←
    Cmd.index_assign joint_group_positions 0 (← Cmd.eval (vec_at joint_angle 0))
  Cmd.call (.setJointValueTarget joint_group_positions)
  Cmd.call .plan
  let _my_plan := q.move_group2_.planResult
  let success := decide (q.move_group2_.planCode = MoveItErrorCode.SUCCESS)
  if success = false then
    return false
  Cmd.call .move
  let _ := q.move_group2_.moveCode
  return true

end Commands

/-! ## Vocabulary of the properties -/

/-- The five names the callback looks for, in slot order. -/
def jointNames : List String := ["joint1", "joint2", "joint3", "joint4", "gripper"]

/-- Whether index `i` of the message holds one of the five names. -/
def knownAt {D : Type} (msg : JointState D) (i : Nat) : Bool :=
  match msg.name[i]? with
  | some nm => decide (nm ∈ jointNames)
  | none => false

/-- Every index of the message that holds one of the five names also has a position. -/
def HasPositions {D : Type} (msg : JointState D) : Prop :=
  ∀ i, i < msg.name.length → knownAt msg i = true → i < msg.position.length

instance {D : Type} (msg : JointState D) : Decidable (HasPositions msg) :=
  inferInstanceAs (Decidable (∀ i, i < msg.name.length → _))

/-- Whether a call makes the robot move: `move` and `execute` do. -/
def Call.isExecution {D P : Type} : Call D P → Bool
  | .move => true
  | .execute _ => true
  | _ => false

/-- The execution calls among the calls made, in order. -/
def executions {D P : Type} (log : List (Call D P)) : List (Call D P) :=
  log.filter Call.isExecution

/-- The joint targets handed to `setJointValueTarget`, in order. -/
def jointTargets {D P : Type} (log : List (Call D P)) : List (List D) :=
  log.filterMap (fun c => match c with
    | .setJointValueTarget v => some v
    | _ => none)

/-- The tolerances handed to `setGoalTolerance`, in order. -/
def goalTolerances {D P : Type} (log : List (Call D P)) : List D :=
  log.filterMap (fun c => match c with
    | .setGoalTolerance t => some t
    | _ => none)

/-- The poses handed to `setPoseTarget`, in order. -/
def poseTargets {D P : Type} (log : List (Call D P)) : List (Pose D) :=
  log.filterMap (fun c => match c with
    | .setPoseTarget t => some t
    | _ => none)

/-- The node with the answer of `move` on both move groups replaced by `c`. -/
def withMoveCode {D P : Type} (q : QNode D P) (c : MoveItErrorCode) : QNode D P :=
  { q with move_group_ := { q.move_group_ with moveCode := c },
           move_group2_ := { q.move_group2_ with moveCode := c } }

/-- The message without its entry `r`: the name and the position at index `r` removed. -/
def eraseEntry {D : Type} (msg : JointState D) (r : Nat) : JointState D :=
  { name := msg.name.eraseIdx r, position := msg.position.eraseIdx r }

/-- One removal step: `b` is `a` without one entry whose name is none of the five. -/
def removesUnknown {D : Type} (a b : JointState D) : Prop :=
  ∃ r, knownAt a r = false ∧ b = eraseEntry a r

/-- The message as a list of entries: each name with the position at its index, if any. -/
def entries {D : Type} (msg : JointState D) : List (String × Option D) :=
  msg.name.enum.map (fun e => (e.2, msg.position[e.1]?))

/-! ## Concrete inputs -/

/-- A stub planner that reports success for plan 7 and for the motion. -/
def planner_ok : MoveGroupInterface Rat Nat :=
  { jointGroupPositions := [10, 20, 30, 40, 50], currentPose := ⟨⟨5, 6, 7⟩, ⟨0, 0, 0, 1⟩⟩,
    planCode := ⟨1⟩, planResult := 7, moveCode := ⟨1⟩ }

/-- A node whose joint-angle snapshot holds 1 in every slot. -/
def node_ones : QNode Rat Nat :=
  { move_group_ := planner_ok, move_group2_ := planner_ok,
    present_joint_angle_ := [1, 1, 1, 1, 1], present_kinematics_position_ := [5, 6, 7] }

/-- A node as `init` leaves it: both snapshots are empty vectors. -/
def node_fresh : QNode Rat Nat :=
  { move_group_ := planner_ok, move_group2_ := planner_ok,
    present_joint_angle_ := [], present_kinematics_position_ := [] }

/-- A planning library whose groups report no joint at all. -/
def planner_no_joints : MoveGroupInterface Rat Nat :=
  { planner_ok with jointGroupPositions := [] }

/-- A node whose arm and gripper groups report no joint at all. -/
def node_no_joints : QNode Rat Nat :=
  { node_ones with move_group_ := planner_no_joints, move_group2_ := planner_no_joints }

/-- A message that reports joint1 alone, at position 2. -/
def msg_joint1 : JointState Rat := { name := ["joint1"], position := [2] }

/-- A message that names joint1 and carries no position. -/
def msg_no_position : JointState Rat := { name := ["joint1"], position := [] }

/-- A message with an unknown name, a repeated name, and no position for its last name,
which is unknown. -/
def msg_mixed : JointState Rat :=
  { name := ["wheel_left", "joint2", "gripper", "joint2", "wheel_right"],
    position := [9, 3, 4, 8] }

/-! ## The loop of the callback -/

section LoopLemmas

variable {D : Type}

theorem jointNames_slot {k : Nat} {nm : String} (h : jointNames[k]? = some nm) :
    (k = 0 ∧ nm = "joint1") ∨ (k = 1 ∧ nm = "joint2") ∨ (k = 2 ∧ nm = "joint3") ∨
      (k = 3 ∧ nm = "joint4") ∨ (k = 4 ∧ nm = "gripper") := by
  unfold jointNames at h
  match k, h with
  | 0, h => simp at h; simp [h]
  | 1, h => simp at h; simp [h]
  | 2, h => simp at h; simp [h]
  | 3, h => simp at h; simp [h]
  | 4, h => simp at h; simp [h]
  | k + 5, h => simp at h

theorem jointStatesBody_unknown (msg : JointState D) (i : Nat) (temp : List D) {nm : String}
    (hn : msg.name[i]? = some nm) (hk : nm ∉ jointNames) :
    jointStatesBody msg i temp = .ok temp := by
  simp only [jointNames, List.mem_cons, List.mem_singleton, not_or, List.not_mem_nil,
    or_false] at hk
  obtain ⟨h1, h2, h3, h4, h5⟩ := hk
  simp [jointStatesBody, vec_at, hn, bind, Except.bind, h1, h2, h3, h4, h5, pure, Except.pure]

theorem jointStatesBody_known (msg : JointState D) (i : Nat) (temp : List D) {nm : String}
    {k : Nat} (hn : msg.name[i]? = some nm) (hk : jointNames[k]? = some nm) :
    jointStatesBody msg i temp
      = (match msg.position[i]? with
         | some p => vec_at_assign temp k p
         | none => .error .out_of_range) := by
  rcases jointNames_slot hk with h | h | h | h | h <;> obtain ⟨rfl, rfl⟩ := h <;>
    cases hp : msg.position[i]? <;>
    simp [jointStatesBody, vec_at, hn, hp, bind, Except.bind]

theorem jointNames_inj {k l : Nat} {nm : String} (hk : jointNames[k]? = some nm)
    (hl : jointNames[l]? = some nm) : k = l := by
  rcases jointNames_slot hk with h | h | h | h | h <;> obtain ⟨rfl, rfl⟩ := h <;>
    rcases jointNames_slot hl with h | h | h | h | h <;> obtain ⟨rfl, h2⟩ := h <;>
    first | rfl | (exact absurd h2 (by decide))

theorem knownAt_iff (msg : JointState D) (i : Nat) :
    knownAt msg i = true ↔ ∃ nm, msg.name[i]? = some nm ∧ nm ∈ jointNames := by
  unfold knownAt
  cases h : msg.name[i]? <;> simp

/-- The loop over the indices `lo .. lo + n - 1` of a message whose known names there have
positions: it ends normally, and each slot holds the position at the last index carrying its
name, or what it held before when no index carries it. -/
theorem forLoop_jointStatesBody (msg : JointState D) :
    ∀ (n lo : Nat) (temp : List D), temp.length = 5 → lo + n ≤ msg.name.length →
      (∀ i, lo ≤ i → i < lo + n → knownAt msg i = true → i < msg.position.length) →
      ∃ t : List D, forLoop (jointStatesBody msg) lo n temp = .ok t ∧ t.length = 5 ∧
        ∀ (k : Nat) (nm : String), jointNames[k]? = some nm →
          (∀ i, lo ≤ i → i < lo + n → msg.name[i]? = some nm →
            (∀ j, i < j → j < lo + n → msg.name[j]? ≠ some nm) →
              t[k]? = msg.position[i]?) ∧
          ((∀ i, lo ≤ i → i < lo + n → msg.name[i]? ≠ some nm) → t[k]? = temp[k]?) := by
  intro n
  induction n with
  | zero =>
    intro lo temp hlen _ _
    refine ⟨temp, rfl, hlen, ?_⟩
    intro k nm _
    exact ⟨fun i h1 h2 => absurd h2 (by omega), fun _ => rfl⟩
  | succ n ih =>
    intro lo temp hlen hle hpos
    have hlo : lo < msg.name.length := by omega
    obtain ⟨nm0, hnm0⟩ : ∃ nm0, msg.name[lo]? = some nm0 :=
      ⟨msg.name[lo], List.getElem?_eq_getElem hlo⟩
    by_cases hmem : nm0 ∈ jointNames
    · obtain ⟨k0, hk0⟩ := List.mem_iff_getElem?.mp hmem
      have hk0lt : k0 < 5 := by
        rcases jointNames_slot hk0 with h | h | h | h | h <;> omega
      have hp : lo < msg.position.length :=
        hpos lo (le_refl _) (by omega) ((knownAt_iff msg lo).mpr ⟨nm0, hnm0, hmem⟩)
      have hbody : jointStatesBody msg lo temp = .ok (temp.set k0 msg.position[lo]) := by
        rw [jointStatesBody_known msg lo temp hnm0 hk0, List.getElem?_eq_getElem hp]
        simp [vec_at_assign, hlen, hk0lt]
      obtain ⟨t, ht, htlen, hsl⟩ := ih (lo + 1) (temp.set k0 msg.position[lo])
        (by simpa using hlen) (by omega)
        (fun i h1 h2 => hpos i (by omega) (by omega))
      refine ⟨t, ?_, htlen, ?_⟩
      · simp only [forLoop, hbody]; exact ht
      · intro k nm hk
        obtain ⟨h1, h2⟩ := hsl k nm hk
        constructor
        · intro i hi1 hi2 hin hlast
          by_cases hil : i = lo
          · subst hil
            have hnm : nm0 = nm := by rw [hnm0] at hin; exact Option.some.inj hin
            subst hnm
            have hkk : k = k0 := jointNames_inj hk hk0
            subst hkk
            rw [h2 (fun j hj1 hj2 => hlast j (by omega) (by omega))]
            rw [List.getElem?_eq_getElem hp]
            simp [List.getElem?_set, hlen, hk0lt]
          · exact h1 i (by omega) (by omega) hin
              (fun j hj1 hj2 => hlast j hj1 (by omega))
        · intro hnone
          rw [h2 (fun i hi1 hi2 => hnone i (by omega) (by omega))]
          have hne : k0 ≠ k := by
            intro hkk
            subst hkk
            have : nm0 = nm := by rw [hk0] at hk; exact Option.some.inj hk
            exact hnone lo (le_refl _) (by omega) (this ▸ hnm0)
          simp [List.getElem?_set, hne]
    · have hbody : jointStatesBody msg lo temp = .ok temp :=
        jointStatesBody_unknown msg lo temp hnm0 hmem
      obtain ⟨t, ht, htlen, hsl⟩ := ih (lo + 1) temp hlen (by omega)
        (fun i h1 h2 => hpos i (by omega) (by omega))
      refine ⟨t, ?_, htlen, ?_⟩
      · simp only [forLoop, hbody]; exact ht
      · intro k nm hk
        obtain ⟨h1, h2⟩ := hsl k nm hk
        have hne : nm0 ≠ nm := fun h => hmem (h ▸ List.mem_iff_getElem?.mpr ⟨k, hk⟩)
        constructor
        · intro i hi1 hi2 hin hlast
          have hil : i ≠ lo := by
            intro hil
            subst hil
            rw [hnm0] at hin
            exact hne (Option.some.inj hin)
          exact h1 i (by omega) (by omega) hin (fun j hj1 hj2 => hlast j hj1 (by omega))
        · intro hnone
          exact h2 (fun i hi1 hi2 => hnone i (by omega) (by omega))

/-- A loop that ends normally has met a position at every index that holds a known name. -/
theorem forLoop_jointStatesBody_ok (msg : JointState D) :
    ∀ (n lo : Nat) (temp t : List D), forLoop (jointStatesBody msg) lo n temp = .ok t →
      ∀ i, lo ≤ i → i < lo + n → knownAt msg i = true → i < msg.position.length := by
  intro n
  induction n with
  | zero => intro lo temp t _ i h1 h2; omega
  | succ n ih =>
    intro lo temp t hrun i h1 h2 hknown
    simp only [forLoop] at hrun
    cases hb : jointStatesBody msg lo temp with
    | error e => rw [hb] at hrun; exact absurd hrun (by simp)
    | ok temp1 =>
      rw [hb] at hrun
      by_cases hil : i = lo
      · subst hil
        obtain ⟨nm, hnm, hmem⟩ := (knownAt_iff msg i).mp hknown
        obtain ⟨k, hk⟩ := List.mem_iff_getElem?.mp hmem
        rw [jointStatesBody_known msg i temp hnm hk] at hb
        by_contra hlt
        rw [List.getElem?_eq_none (by omega)] at hb
        exact absurd hb (by simp)
      · exact ih (lo + 1) temp1 t hrun i (by omega) (by omega) hknown

end LoopLemmas

/-! ## The telemetry callback -/

section CallbackLemmas

variable {D P : Type} [OfScientific D]

theorem temp_angle_init_getElem? {k : Nat} (hk : k < 5) :
    (temp_angle_init : List D)[k]? = some 0.0 := by
  unfold temp_angle_init NUM_OF_JOINT_AND_TOOL
  rw [List.getElem?_replicate, if_pos hk]

/-- On a message whose known names all have positions the scan ends normally with five
slots, each holding the position at the last index that carries its name, or `0.0`. -/
theorem jointStatesScan_ok (msg : JointState D) (h : HasPositions msg) :
    ∃ t : List D, jointStatesScan msg = .ok t ∧ t.length = 5 ∧
      ∀ (k : Nat) (nm : String), jointNames[k]? = some nm →
        (∀ i : Nat, msg.name[i]? = some nm → (∀ j : Nat, i < j → msg.name[j]? ≠ some nm) →
          t[k]? = msg.position[i]?) ∧
        (nm ∉ msg.name → t[k]? = some 0.0) := by
  obtain ⟨t, ht, htlen, hsl⟩ := forLoop_jointStatesBody msg msg.name.length 0
    temp_angle_init (by simp [temp_angle_init, NUM_OF_JOINT_AND_TOOL]) (by omega)
    (fun i _ h2 hk => h i (by omega) hk)
  refine ⟨t, ht, htlen, ?_⟩
  intro k nm hk
  obtain ⟨h1, h2⟩ := hsl k nm hk
  have hk5 : k < 5 := by rcases jointNames_slot hk with h | h | h | h | h <;> omega
  constructor
  · intro i hin hlast
    have hi : i < msg.name.length := by
      by_contra hlt
      rw [List.getElem?_eq_none (by omega)] at hin
      exact absurd hin (by simp)
    exact h1 i (Nat.zero_le _) (by omega) hin (fun j hj _ => hlast j hj)
  · intro hnot
    rw [h2 (fun i _ _ hin => hnot (List.mem_iff_getElem?.mpr ⟨i, hin⟩))]
    exact temp_angle_init_getElem? hk5

theorem jointStatesScan_error (msg : JointState D) (h : ¬ HasPositions msg) :
    jointStatesScan msg = .error .out_of_range := by
  cases hs : jointStatesScan msg with
  | error e => cases e; rfl
  | ok t =>
    exact absurd (fun i hi hk =>
      forLoop_jointStatesBody_ok msg msg.name.length 0 temp_angle_init t hs i
        (Nat.zero_le _) (by omega) hk) h

theorem jointStatesCallback_of_scan_ok (q : QNode D P) (msg : JointState D) {t : List D}
    (h : jointStatesScan msg = .ok t) :
    jointStatesCallback q msg = (.ok (), { q with
      present_joint_angle_ := t,
      present_kinematics_position_ := [q.move_group_.currentPose.position.x,
        q.move_group_.currentPose.position.y, q.move_group_.currentPose.position.z] }) := by
  simp [jointStatesCallback, h]

theorem jointStatesCallback_of_scan_error (q : QNode D P) (msg : JointState D)
    {e : Exception} (h : jointStatesScan msg = .error e) :
    jointStatesCallback q msg = (.error e, q) := by
  simp [jointStatesCallback, h]

theorem hasPositions_iff {D : Type} (msg : JointState D) :
    HasPositions msg ↔
      ∀ (i : Nat) (nm : String), msg.name[i]? = some nm → nm ∈ jointNames →
        ∃ p, msg.position[i]? = some p := by
  constructor
  · intro h i nm hin hmem
    have hi : i < msg.name.length := by
      by_contra hlt
      rw [List.getElem?_eq_none (by omega)] at hin
      exact absurd hin (by simp)
    have hp := h i hi ((knownAt_iff msg i).mpr ⟨nm, hin, hmem⟩)
    exact ⟨msg.position[i], List.getElem?_eq_getElem hp⟩
  · intro h i _ hk
    obtain ⟨nm, hin, hmem⟩ := (knownAt_iff msg i).mp hk
    obtain ⟨p, hp⟩ := h i nm hin hmem
    by_contra hlt
    rw [List.getElem?_eq_none (by omega)] at hp
    exact absurd hp (by simp)

theorem exists_last_index {α : Type} (a : α) :
    ∀ l : List α, a ∈ l → ∃ i : Nat, l[i]? = some a ∧ ∀ j : Nat, i < j → l[j]? ≠ some a := by
  intro l
  induction l with
  | nil => intro h; exact absurd h (List.not_mem_nil a)
  | cons x xs ih =>
    intro h
    by_cases hxs : a ∈ xs
    · obtain ⟨i, hi, hlast⟩ := ih hxs
      refine ⟨i + 1, by simpa using hi, ?_⟩
      intro j hj
      obtain ⟨j1, rfl⟩ : ∃ j1, j = j1 + 1 := ⟨j - 1, by omega⟩
      simpa using hlast j1 (by omega)
    · have hax : a = x := by
        rcases List.mem_cons.mp h with h | h
        · exact h
        · exact absurd h hxs
      subst hax
      refine ⟨0, by simp, ?_⟩
      intro j hj
      obtain ⟨j1, rfl⟩ : ∃ j1, j = j1 + 1 := ⟨j - 1, by omega⟩
      intro hc
      exact hxs (List.mem_iff_getElem?.mpr ⟨j1, by simpa using hc⟩)

/-- Two messages whose known names all have positions leave the same `temp_angle` when each
known name is absent from both or has the same position at its last index in both. -/
theorem jointStatesScan_congr (m1 m2 : JointState D) (h1 : HasPositions m1)
    (h2 : HasPositions m2)
    (H : ∀ nm ∈ jointNames, (nm ∉ m1.name ∧ nm ∉ m2.name) ∨
      ∃ i1 i2 : Nat, m1.name[i1]? = some nm ∧ (∀ j : Nat, i1 < j → m1.name[j]? ≠ some nm) ∧
        m2.name[i2]? = some nm ∧ (∀ j : Nat, i2 < j → m2.name[j]? ≠ some nm) ∧
        m1.position[i1]? = m2.position[i2]?) :
    jointStatesScan m1 = jointStatesScan m2 := by
  obtain ⟨t1, ht1, hl1, hs1⟩ := jointStatesScan_ok m1 h1
  obtain ⟨t2, ht2, hl2, hs2⟩ := jointStatesScan_ok m2 h2
  rw [ht1, ht2]
  congr 1
  apply List.ext_getElem?
  intro k
  by_cases hk : k < 5
  · obtain ⟨nm, hnm⟩ : ∃ nm, jointNames[k]? = some nm :=
      ⟨jointNames[k], List.getElem?_eq_getElem (by simpa [jointNames] using hk)⟩
    rcases H nm (List.mem_iff_getElem?.mpr ⟨k, hnm⟩) with ⟨ha, hb⟩ | ⟨i1, i2, a1, a2, b1, b2, e⟩
    · rw [(hs1 k nm hnm).2 ha, (hs2 k nm hnm).2 hb]
    · rw [(hs1 k nm hnm).1 i1 a1 a2, (hs2 k nm hnm).1 i2 b1 b2, e]
  · rw [List.getElem?_eq_none (by omega), List.getElem?_eq_none (by omega)]

theorem hasPositions_eraseEntry {D : Type} (msg : JointState D) (r : Nat)
    (h : HasPositions msg) : HasPositions (eraseEntry msg r) := by
  rw [hasPositions_iff] at h ⊢
  intro i nm hin hmem
  simp only [eraseEntry, List.getElem?_eraseIdx] at hin ⊢
  by_cases hir : i < r
  · simp only [hir, if_true] at hin ⊢
    exact h i nm hin hmem
  · simp only [hir, if_false] at hin ⊢
    exact h (i + 1) nm hin hmem

theorem jointStatesScan_eraseEntry (msg : JointState D) (r : Nat) (h : HasPositions msg)
    (hr : knownAt msg r = false) :
    jointStatesScan (eraseEntry msg r) = jointStatesScan msg := by
  apply jointStatesScan_congr _ _ (hasPositions_eraseEntry msg r h) h
  intro nm hmem
  by_cases hin : nm ∈ msg.name
  · right
    obtain ⟨i, hi, hlast⟩ := exists_last_index nm msg.name hin
    have hne : i ≠ r := by
      intro hir
      subst hir
      have := (knownAt_iff msg i).mpr ⟨nm, hi, hmem⟩
      rw [hr] at this
      exact absurd this (by simp)
    by_cases hir : i < r
    · refine ⟨i, i, ?_, ?_, hi, hlast, ?_⟩
      · simp [eraseEntry, List.getElem?_eraseIdx, hir, hi]
      · intro j hj
        simp only [eraseEntry, List.getElem?_eraseIdx]
        split
        · exact hlast j hj
        · exact hlast (j + 1) (by omega)
      · simp [eraseEntry, List.getElem?_eraseIdx, hir]
    · obtain ⟨i1, rfl⟩ : ∃ i1, i = i1 + 1 := ⟨i - 1, by omega⟩
      have hge : ¬ i1 < r := by omega
      refine ⟨i1, i1 + 1, ?_, ?_, hi, hlast, ?_⟩
      · simp [eraseEntry, List.getElem?_eraseIdx, hge, hi]
      · intro j hj
        simp only [eraseEntry, List.getElem?_eraseIdx]
        split
        · omega
        · exact hlast (j + 1) (by omega)
      · simp [eraseEntry, List.getElem?_eraseIdx, hge]
  · left
    exact ⟨fun hc => hin (List.mem_of_mem_eraseIdx hc), hin⟩

theorem mem_entries {D : Type} (msg : JointState D) (nm : String) (op : Option D) :
    (nm, op) ∈ entries msg ↔ ∃ i : Nat, msg.name[i]? = some nm ∧ msg.position[i]? = op := by
  unfold entries
  rw [List.mem_map]
  constructor
  · rintro ⟨⟨i, x⟩, hmem, heq⟩
    simp only [Prod.mk.injEq] at heq
    obtain ⟨rfl, rfl⟩ := heq
    exact ⟨i, List.mk_mem_enum_iff_getElem?.mp hmem, rfl⟩
  · rintro ⟨i, hi, rfl⟩
    exact ⟨(i, nm), List.mk_mem_enum_iff_getElem?.mpr hi, rfl⟩

theorem entries_map_fst {D : Type} (msg : JointState D) :
    (entries msg).map Prod.fst = msg.name := by
  unfold entries
  rw [List.map_map]
  exact List.enum_map_snd msg.name

theorem nodup_last {α : Type} {l : List α} (hl : l.Nodup) {a : α} {i : Nat}
    (hi : l[i]? = some a) : ∀ j : Nat, i < j → l[j]? ≠ some a := by
  intro j hj hc
  have hjl : j < l.length := by
    by_contra hlt
    rw [List.getElem?_eq_none (by omega)] at hc
    exact absurd hc (by simp)
  exact List.nodup_iff_getElem?_ne_getElem?.mp hl i j hj hjl (hi.trans hc.symm)

theorem jointStatesScan_perm (m1 m2 : JointState D) (h1 : HasPositions m1)
    (hnd : m1.name.Nodup) (hp : (entries m1).Perm (entries m2)) :
    jointStatesScan m2 = jointStatesScan m1 := by
  have hnames : m1.name.Perm m2.name := by
    have := hp.map Prod.fst
    rwa [entries_map_fst, entries_map_fst] at this
  have hnd2 : m2.name.Nodup := hnames.nodup_iff.mp hnd
  have h2 : HasPositions m2 := by
    rw [hasPositions_iff] at h1 ⊢
    intro i nm hin hmem
    have hm2 : (nm, m2.position[i]?) ∈ entries m2 := (mem_entries m2 nm _).mpr ⟨i, hin, rfl⟩
    obtain ⟨i1, hi1, hpos⟩ := (mem_entries m1 nm _).mp (hp.mem_iff.mpr hm2)
    obtain ⟨p, hpp⟩ := h1 i1 nm hi1 hmem
    exact ⟨p, by rw [← hpos, hpp]⟩
  apply jointStatesScan_congr m2 m1 h2 h1
  intro nm _
  by_cases hin : nm ∈ m1.name
  · right
    obtain ⟨i1, hi1⟩ := List.mem_iff_getElem?.mp hin
    have hm1 : (nm, m1.position[i1]?) ∈ entries m1 := (mem_entries m1 nm _).mpr ⟨i1, hi1, rfl⟩
    obtain ⟨i2, hi2, hpos⟩ := (mem_entries m2 nm _).mp (hp.mem_iff.mp hm1)
    exact ⟨i2, i1, hi2, nodup_last hnd2 hi2, hi1, nodup_last hnd hi1, hpos⟩
  · left
    exact ⟨fun hc => hin (hnames.mem_iff.mpr hc), hin⟩

theorem jointStatesScan_removesUnknown (msg msg2 : JointState D)
    (hr : Relation.ReflTransGen removesUnknown msg msg2) (h : HasPositions msg) :
    HasPositions msg2 ∧ jointStatesScan msg2 = jointStatesScan msg := by
  induction hr with
  | refl => exact ⟨h, rfl⟩
  | tail _ hstep ih =>
    obtain ⟨r, hr, rfl⟩ := hstep
    exact ⟨hasPositions_eraseEntry _ r ih.1,
      (jointStatesScan_eraseEntry _ r ih.1 hr).trans ih.2⟩

theorem jointStatesCallback_snapshot_congr (q1 q2 : QNode D P) (m1 m2 : JointState D)
    (h1 : HasPositions m1) (h : jointStatesScan m1 = jointStatesScan m2) :
    (jointStatesCallback q1 m1).2.present_joint_angle_
      = (jointStatesCallback q2 m2).2.present_joint_angle_ := by
  obtain ⟨t, ht, _, _⟩ := jointStatesScan_ok m1 h1
  rw [jointStatesCallback_of_scan_ok q1 m1 ht,
    jointStatesCallback_of_scan_ok q2 m2 (h ▸ ht)]

end CallbackLemmas

/-! ## The commands -/

section CommandLemmas

variable {D P : Type}

/-- The run of `setJointSpacePath` on four angles or more, over an arm group of four joints
or more: the target is set, `plan` is called, and `move` on success. -/
theorem setJointSpacePath_run (q : QNode D P) (a0 a1 a2 a3 : D) (rest : List D)
    (path_time : D) {c0 c1 c2 c3 : D} {crest : List D}
    (hc : q.move_group_.jointGroupPositions = c0 :: c1 :: c2 :: c3 :: crest) :
    (setJointSpacePath q (a0 :: a1 :: a2 :: a3 :: rest) path_time).run
      = ([.getCurrentState, .getCurrentState,
          .setJointValueTarget (a0 :: a1 :: a2 :: a3 :: crest),
          .plan] ++ (if q.move_group_.planCode = MoveItErrorCode.SUCCESS then [.move] else []),
        .ok (decide (q.move_group_.planCode = MoveItErrorCode.SUCCESS))) := by
  by_cases h : q.move_group_.planCode = MoveItErrorCode.SUCCESS <;>
    simp [setJointSpacePath, Cmd.run, bind, Cmd.bind, Cmd.call, Cmd.eval, Cmd.index_assign,
      vec_at, h, hc, pure]

theorem setJointSpacePath_run_short (q : QNode D P) (joint_angle : List D) (path_time : D)
    (h : joint_angle.length < 4)
    (hcur : joint_angle.length ≤ q.move_group_.jointGroupPositions.length) :
    (setJointSpacePath q joint_angle path_time).run
      = ([.getCurrentState, .getCurrentState], .error (.threw .out_of_range)) := by
  match joint_angle, hc : q.move_group_.jointGroupPositions, h, hcur with
  | [], _, _, _ => rfl
  | [_], _ :: _, _, _ =>
    simp [setJointSpacePath, Cmd.run, bind, Cmd.bind, Cmd.call, Cmd.eval, Cmd.index_assign,
      vec_at, hc]
  | [_, _], _ :: _ :: _, _, _ =>
    simp [setJointSpacePath, Cmd.run, bind, Cmd.bind, Cmd.call, Cmd.eval, Cmd.index_assign,
      vec_at, hc]
  | [_, _, _], _ :: _ :: _ :: _, _, _ =>
    simp [setJointSpacePath, Cmd.run, bind, Cmd.bind, Cmd.call, Cmd.eval, Cmd.index_assign,
      vec_at, hc]
  | [_], [], _, h2 => simp at h2
  | [_, _], [], _, h2 => simp at h2
  | [_, _], [_], _, h2 => simp at h2
  | [_, _, _], [], _, h2 => simp at h2
  | [_, _, _], [_], _, h2 => simp at h2
  | [_, _, _], [_, _], _, h2 => simp at h2
  | _ :: _ :: _ :: _ :: _, _, h, _ => simp at h; omega

theorem setTaskSpacePath_run [OfScientific D] (q : QNode D P) (x y z : D) (rest : List D)
    (path_time : D) :
    (setTaskSpacePath q (x :: y :: z :: rest) path_time).run
      = ([.setGoalTolerance 0.1,
          .setPoseTarget { position := ⟨x, y, z⟩, orientation := ⟨0.0, 0.0, 0.0, 0.0⟩ },
          .plan] ++ (if q.move_group_.planCode = MoveItErrorCode.SUCCESS then [.move] else []),
        .ok (decide (q.move_group_.planCode = MoveItErrorCode.SUCCESS))) := by
  by_cases h : q.move_group_.planCode = MoveItErrorCode.SUCCESS <;>
    simp [setTaskSpacePath, Cmd.run, bind, Cmd.bind, Cmd.call, Cmd.eval, vec_at, h, pure,
      Pose.init]

/-- The run of `setToolControl` on one angle or more, over a gripper group of one joint or
more. -/
theorem setToolControl_run (q : QNode D P) (a0 : D) (rest : List D) {c0 : D} {crest : List D}
    (hc : q.move_group2_.jointGroupPositions = c0 :: crest) :
    (setToolControl q (a0 :: rest)).run
      = ([.getCurrentState, .getCurrentState,
          .setJointValueTarget (a0 :: crest),
          .plan] ++ (if q.move_group2_.planCode = MoveItErrorCode.SUCCESS then [.move] else []),
        .ok (decide (q.move_group2_.planCode = MoveItErrorCode.SUCCESS))) := by
  by_cases h : q.move_group2_.planCode = MoveItErrorCode.SUCCESS <;>
    simp [setToolControl, Cmd.run, bind, Cmd.bind, Cmd.call, Cmd.eval, Cmd.index_assign,
      vec_at, h, hc, pure]

theorem exists_four {α : Type} (l : List α) (h : 4 ≤ l.length) :
    ∃ a0 a1 a2 a3 rest, l = a0 :: a1 :: a2 :: a3 :: rest := by
  match l, h with
  | a0 :: a1 :: a2 :: a3 :: rest, _ => exact ⟨a0, a1, a2, a3, rest, rfl⟩

theorem exists_three {α : Type} (l : List α) (h : 3 ≤ l.length) :
    ∃ a0 a1 a2 rest, l = a0 :: a1 :: a2 :: rest := by
  match l, h with
  | a0 :: a1 :: a2 :: rest, _ => exact ⟨a0, a1, a2, rest, rfl⟩

theorem exists_one {α : Type} (l : List α) (h : 1 ≤ l.length) :
    ∃ a0 rest, l = a0 :: rest := by
  match l, h with
  | a0 :: rest, _ => exact ⟨a0, rest, rfl⟩

/-- Over a group without joints the unchecked write of element 0 is undefined: neither
command returns. -/
theorem commands_undefined_without_joints :
    (setJointSpacePath node_no_joints [1, 2, 3, 4] 0).run.2 = .error .undefined_behaviour ∧
    (setJointSpacePath node_no_joints [1] 0).run.2 = .error .undefined_behaviour ∧
    (setToolControl node_no_joints [1]).run.2 = .error .undefined_behaviour :=
  ⟨rfl, rfl, rfl⟩

end CommandLemmas

/-! ## Telemetry: the claims -/

section TelemetryClaims

variable {D P : Type} [OfScientific D]

/-- C1, as stated, fails: the node holds 1 in every slot and the message reports joint1
alone (a subset of the five names, with a position for its name). After the callback the
slot of joint2, a name that is not in the message, holds `0.0` and not the 1 it held
before; the whole snapshot is `[2, 0.0, 0.0, 0.0, 0.0]`. -/
theorem jointStatesCallback_unmatched_slot_not_retained :
    (∀ nm ∈ msg_joint1.name, nm ∈ jointNames) ∧
    msg_joint1.name.length ≤ msg_joint1.position.length ∧
    jointNames[1]? = some "joint2" ∧ "joint2" ∉ msg_joint1.name ∧
    node_ones.present_joint_angle_ = [1, 1, 1, 1, 1] ∧
    (jointStatesCallback node_ones msg_joint1).2.present_joint_angle_
      = [2, 0.0, 0.0, 0.0, 0.0] ∧
    (jointStatesCallback node_ones msg_joint1).2.present_joint_angle_[1]?
      ≠ node_ones.present_joint_angle_[1]? := by
  refine ⟨by decide, by decide, rfl, by decide, rfl, rfl, ?_⟩
  have h : (jointStatesCallback node_ones msg_joint1).2.present_joint_angle_
      = [2, 0.0, 0.0, 0.0, 0.0] := rfl
  rw [h]
  simp only [node_ones]
  norm_num

/-- C1, amended: for every prior node and every message whose names are all among the five
known names, with a position for each name, the callback ends normally; a slot whose name
occurs in the message holds the position the message has at the last index carrying that
name, and every other slot holds `0.0`, whatever it held before. -/
theorem jointStatesCallback_known_subset (q : QNode D P) (msg : JointState D)
    (hsub : ∀ nm ∈ msg.name, nm ∈ jointNames)
    (hpos : msg.name.length ≤ msg.position.length) :
    (jointStatesCallback q msg).1 = .ok () ∧
    ∀ (k : Nat) (nm : String), jointNames[k]? = some nm →
      (nm ∈ msg.name → ∃ (i : Nat) (p : D), msg.name[i]? = some nm ∧
        (∀ j : Nat, i < j → msg.name[j]? ≠ some nm) ∧ msg.position[i]? = some p ∧
        (jointStatesCallback q msg).2.present_joint_angle_[k]? = some p) ∧
      (nm ∉ msg.name → (jointStatesCallback q msg).2.present_joint_angle_[k]? = some 0.0) := by
  have hp : HasPositions msg := fun i hi _ => by omega
  obtain ⟨t, ht, _, hs⟩ := jointStatesScan_ok msg hp
  rw [jointStatesCallback_of_scan_ok q msg ht]
  refine ⟨rfl, ?_⟩
  intro k nm hk
  constructor
  · intro hin
    obtain ⟨i, hi, hlast⟩ := exists_last_index nm msg.name hin
    obtain ⟨p, hpp⟩ := (hasPositions_iff msg).mp hp i nm hi (hsub nm hin)
    exact ⟨i, p, hi, hlast, hpp, ((hs k nm hk).1 i hi hlast).trans hpp⟩
  · intro hnot
    exact (hs k nm hk).2 hnot

/-- C1, amended, at the node holding 1 everywhere and the message that reports joint1 at 2:
the slot of joint2 holds `0.0`. -/
theorem jointStatesCallback_known_subset_witness :
    (jointStatesCallback node_ones msg_joint1).2.present_joint_angle_[1]? = some (0.0 : Rat) :=
  ((jointStatesCallback_known_subset node_ones msg_joint1 (by decide) (by decide)).2
    1 "joint2" rfl).2 (by decide)

/-- C4, as stated, fails: on the message that names joint1 and carries no position the
callback throws before it assigns the snapshot, so the node that held `[1, 1, 1, 1, 1]`
still does, the fresh node still has an empty snapshot, the two snapshots differ, and the
second has 0 entries, not 5. -/
theorem jointStatesCallback_throw_keeps_prior_snapshot :
    getPresentJointAngle (jointStatesCallback node_ones msg_no_position).2 = [1, 1, 1, 1, 1] ∧
    getPresentJointAngle (jointStatesCallback node_fresh msg_no_position).2 = [] ∧
    (jointStatesCallback node_ones msg_no_position).2.present_joint_angle_
      ≠ (jointStatesCallback node_fresh msg_no_position).2.present_joint_angle_ ∧
    (getPresentJointAngle (jointStatesCallback node_fresh msg_no_position).2).length ≠ 5 := by
  have h1 : (jointStatesCallback node_ones msg_no_position).2.present_joint_angle_
      = [1, 1, 1, 1, 1] := rfl
  have h2 : (jointStatesCallback node_fresh msg_no_position).2.present_joint_angle_
      = [] := rfl
  refine ⟨h1, h2, ?_, ?_⟩
  · rw [h1, h2]; simp
  · simp [getPresentJointAngle, h2]

/-- C4, amended: for every message in which each index holding a known name also has a
position, and any two prior nodes, the callback leaves the same joint-angle snapshot: it is
the vector the scan of the message alone yields, it has exactly 5 entries, and it is what
`getPresentJointAngle` then returns. -/
theorem jointStatesCallback_last_write_wins (q1 q2 : QNode D P) (msg : JointState D)
    (h : HasPositions msg) :
    jointStatesScan msg = .ok (jointStatesCallback q1 msg).2.present_joint_angle_ ∧
    (jointStatesCallback q1 msg).2.present_joint_angle_
      = (jointStatesCallback q2 msg).2.present_joint_angle_ ∧
    (jointStatesCallback q1 msg).2.present_joint_angle_.length = 5 ∧
    getPresentJointAngle (jointStatesCallback q1 msg).2
      = (jointStatesCallback q1 msg).2.present_joint_angle_ := by
  obtain ⟨t, ht, hlen, _⟩ := jointStatesScan_ok msg h
  rw [jointStatesCallback_of_scan_ok q1 msg ht, jointStatesCallback_of_scan_ok q2 msg ht]
  exact ⟨ht, rfl, hlen, rfl⟩

/-- C4, amended, at the mixed message and two nodes with different snapshots. -/
theorem jointStatesCallback_last_write_wins_witness :
    HasPositions msg_mixed ∧
    (jointStatesCallback node_ones msg_mixed).2.present_joint_angle_
      = (jointStatesCallback node_fresh msg_mixed).2.present_joint_angle_ ∧
    (jointStatesCallback node_ones msg_mixed).2.present_joint_angle_.length = 5 :=
  ⟨by decide,
    (jointStatesCallback_last_write_wins node_ones node_fresh msg_mixed (by decide)).2.1,
    (jointStatesCallback_last_write_wins node_ones node_fresh msg_mixed (by decide)).2.2.1⟩

/-- C5, as stated, fails: the message names joint1 and its position array is shorter than
its name array; `msg->position.at(0)` throws and the callback ends with
`std::out_of_range`. -/
theorem jointStatesCallback_throws_without_position :
    msg_no_position.position.length < msg_no_position.name.length ∧
    knownAt msg_no_position 0 = true ∧
    (jointStatesCallback node_ones msg_no_position).1 = .error .out_of_range :=
  ⟨by decide, by decide, rfl⟩

/-- C5, amended: the callback completes normally exactly on the messages in which each
index holding a known name also has a position (a position array shorter than the name
array is absorbed when the names beyond it are unknown); on every other message it raises
`std::out_of_range` and leaves the node as it was. -/
theorem jointStatesCallback_completes_iff (q : QNode D P) (msg : JointState D) :
    (HasPositions msg ∧ (jointStatesCallback q msg).1 = .ok ()) ∨
    (¬ HasPositions msg ∧ jointStatesCallback q msg = (.error .out_of_range, q)) := by
  by_cases h : HasPositions msg
  · left
    obtain ⟨t, ht, _, _⟩ := jointStatesScan_ok msg h
    rw [jointStatesCallback_of_scan_ok q msg ht]
    exact ⟨h, rfl⟩
  · right
    exact ⟨h, jointStatesCallback_of_scan_error q msg (jointStatesScan_error msg h)⟩

/-- C9: for every message in which each index holding a known name also has a position,
slot `k` of the joint-angle snapshot after the callback holds the position at the last index
whose name is the `k`-th known name, and `0.0` when no entry has that name; removing entries
with other names, one after another, leaves the snapshot the same, and so does reordering
the entries of a message without duplicate names. -/
theorem jointStatesCallback_last_index_wins (q : QNode D P) (msg : JointState D)
    (h : HasPositions msg) :
    (∀ (k : Nat) (nm : String), jointNames[k]? = some nm →
      (∀ i : Nat, msg.name[i]? = some nm → (∀ j : Nat, i < j → msg.name[j]? ≠ some nm) →
        (jointStatesCallback q msg).2.present_joint_angle_[k]? = msg.position[i]?) ∧
      (nm ∉ msg.name →
        (jointStatesCallback q msg).2.present_joint_angle_[k]? = some 0.0)) ∧
    (∀ msg2 : JointState D, Relation.ReflTransGen removesUnknown msg msg2 →
      (jointStatesCallback q msg2).2.present_joint_angle_
        = (jointStatesCallback q msg).2.present_joint_angle_) ∧
    (∀ msg2 : JointState D, msg.name.Nodup → (entries msg).Perm (entries msg2) →
      (jointStatesCallback q msg2).2.present_joint_angle_
        = (jointStatesCallback q msg).2.present_joint_angle_) := by
  refine ⟨?_, ?_, ?_⟩
  · obtain ⟨t, ht, _, hs⟩ := jointStatesScan_ok msg h
    rw [jointStatesCallback_of_scan_ok q msg ht]
    exact hs
  · intro msg2 hr
    obtain ⟨_, hscan⟩ := jointStatesScan_removesUnknown msg msg2 hr h
    exact (jointStatesCallback_snapshot_congr q q msg msg2 h hscan.symm).symm
  · intro msg2 hnd hperm
    have hscan := jointStatesScan_perm msg msg2 h hnd hperm
    exact (jointStatesCallback_snapshot_congr q q msg msg2 h hscan.symm).symm

/-- C9 at the mixed message: joint2 occurs at indices 1 and 3 and its slot holds 8, the
position at index 3; joint1 does not occur and its slot holds `0.0`. -/
theorem jointStatesCallback_last_index_wins_witness :
    HasPositions msg_mixed ∧
    (jointStatesCallback node_ones msg_mixed).2.present_joint_angle_[1]? = some 8 ∧
    (jointStatesCallback node_ones msg_mixed).2.present_joint_angle_[0]? = some (0.0 : Rat) :=
  ⟨by decide,
    ((jointStatesCallback_last_index_wins node_ones msg_mixed (by decide)).1
      1 "joint2" rfl).1 3 rfl (fun j hj => by
        match j, hj with
        | 4, _ => decide
        | j + 5, _ => simp [msg_mixed]),
    ((jointStatesCallback_last_index_wins node_ones msg_mixed (by decide)).1
      0 "joint1" rfl).2 (by decide)⟩

end TelemetryClaims

/-! ## Commands: the claims -/

section CommandClaims

variable {D P : Type}

/-- C2: for every input of at least four joint angles and every duration, over an arm group
of at least four joints (where the four unchecked writes are defined), when the planner
reports anything other than success, `setJointSpacePath` returns false and makes no
execution call: `move` (and `execute`) are invoked zero times, after `plan` was called. -/
theorem setJointSpacePath_plan_failure (q : QNode D P) (joint_angle : List D) (path_time : D)
    (hcur : 4 ≤ q.move_group_.jointGroupPositions.length)
    (hlen : 4 ≤ joint_angle.length)
    (hfail : q.move_group_.planCode ≠ MoveItErrorCode.SUCCESS) :
    (setJointSpacePath q joint_angle path_time).run.2 = .ok false ∧
    executions (setJointSpacePath q joint_angle path_time).run.1 = [] ∧
    Call.move ∉ (setJointSpacePath q joint_angle path_time).run.1 ∧
    Call.plan ∈ (setJointSpacePath q joint_angle path_time).run.1 := by
  obtain ⟨a0, a1, a2, a3, rest, rfl⟩ := exists_four joint_angle hlen
  obtain ⟨c0, c1, c2, c3, crest, hc⟩ := exists_four _ hcur
  rw [setJointSpacePath_run q a0 a1 a2 a3 rest path_time hc]
  simp [hfail, executions, Call.isExecution]

/-- C2 at a planner that answers the code -1 (planning failed). -/
theorem setJointSpacePath_plan_failure_witness :
    (setJointSpacePath
        ({ node_ones with move_group_ := { planner_ok with planCode := ⟨-1⟩ } })
        [1, 2, 3, 4] 0).run.2 = .ok false :=
  (setJointSpacePath_plan_failure
    ({ node_ones with move_group_ := { planner_ok with planCode := ⟨-1⟩ } })
    [1, 2, 3, 4] 0 (by decide) (by decide) (by decide)).1

/-- C3, as stated, fails: with the planner reporting success for plan 7 the command makes
the calls `getCurrentState`, `getCurrentState`, `setJointValueTarget`, `plan`, `move`. Its
one execution call is `move()`, which receives no plan; the plan filled by `plan` is never
handed to an execution call. -/
theorem setJointSpacePath_does_not_execute_the_plan :
    node_ones.move_group_.planCode = MoveItErrorCode.SUCCESS ∧
    node_ones.move_group_.planResult = 7 ∧
    (setJointSpacePath node_ones [1, 2, 3, 4] 0).run
      = ([.getCurrentState, .getCurrentState, .setJointValueTarget [1, 2, 3, 4, 50],
          .plan, .move], .ok true) ∧
    executions (setJointSpacePath node_ones [1, 2, 3, 4] 0).run.1
      ≠ [Call.execute node_ones.move_group_.planResult] ∧
    Call.execute node_ones.move_group_.planResult
      ∉ (setJointSpacePath node_ones [1, 2, 3, 4] 0).run.1 := by
  have h : (setJointSpacePath node_ones [1, 2, 3, 4] 0).run
      = ([.getCurrentState, .getCurrentState, .setJointValueTarget [1, 2, 3, 4, 50],
          .plan, .move], .ok true) := rfl
  refine ⟨rfl, rfl, h, ?_, ?_⟩
  · rw [h]; simp [executions, Call.isExecution]
  · rw [h]; simp

/-- C3, amended: for every input of at least four joint angles and every duration, over an
arm group of at least four joints (where the four unchecked writes are defined), when the
planner reports success, `setJointSpacePath` makes exactly one execution call, which is
`move()` and comes right after `plan`; no plan is handed to an execution call; the command
returns true. -/
theorem setJointSpacePath_plan_success (q : QNode D P) (joint_angle : List D) (path_time : D)
    (hcur : 4 ≤ q.move_group_.jointGroupPositions.length)
    (hlen : 4 ≤ joint_angle.length)
    (hok : q.move_group_.planCode = MoveItErrorCode.SUCCESS) :
    (setJointSpacePath q joint_angle path_time).run.2 = .ok true ∧
    executions (setJointSpacePath q joint_angle path_time).run.1 = [Call.move] ∧
    (∃ before, (setJointSpacePath q joint_angle path_time).run.1
      = before ++ [Call.plan, Call.move] ∧ executions before = []) ∧
    ∀ p : P, Call.execute p ∉ (setJointSpacePath q joint_angle path_time).run.1 := by
  obtain ⟨a0, a1, a2, a3, rest, rfl⟩ := exists_four joint_angle hlen
  obtain ⟨c0, c1, c2, c3, crest, hc⟩ := exists_four _ hcur
  rw [setJointSpacePath_run q a0 a1 a2 a3 rest path_time hc]
  refine ⟨by simp [hok], by simp [hok, executions, Call.isExecution], ?_, by simp [hok]⟩
  refine ⟨[.getCurrentState, .getCurrentState,
    .setJointValueTarget (a0 :: a1 :: a2 :: a3 :: crest)], ?_, ?_⟩
  · simp [hok]
  · simp [executions, Call.isExecution]

/-- C3, amended, at the planner that reports success. -/
theorem setJointSpacePath_plan_success_witness :
    (setJointSpacePath node_ones [1, 2, 3, 4] 0).run.2 = .ok true ∧
    executions (setJointSpacePath node_ones [1, 2, 3, 4] 0).run.1 = [Call.move] :=
  ⟨(setJointSpacePath_plan_success node_ones [1, 2, 3, 4] 0
      (by decide) (by decide) (by decide)).1,
    (setJointSpacePath_plan_success node_ones [1, 2, 3, 4] 0
      (by decide) (by decide) (by decide)).2.1⟩

/-- C6: for each of the three commands with a well-sized input, over an arm group of at
least four joints and a gripper group of at least one (where the unchecked writes are
defined), the boolean returned is "the planner reported success" (false for every other
code, true on success); each command calls `plan`, and makes its one execution call, `move`,
exactly when the planner reported success; the whole outcome is the same whatever code the
execution call answers. -/
theorem commands_return_plan_success [OfScientific D] (q : QNode D P)
    (joint_angle kinematics_pose tool_angle : List D) (path_time : D)
    (harm : 4 ≤ q.move_group_.jointGroupPositions.length)
    (hgrip : 1 ≤ q.move_group2_.jointGroupPositions.length)
    (hj : 4 ≤ joint_angle.length) (hk : 3 ≤ kinematics_pose.length)
    (ht : 1 ≤ tool_angle.length) :
    ((setJointSpacePath q joint_angle path_time).run.2
        = .ok (decide (q.move_group_.planCode = MoveItErrorCode.SUCCESS)) ∧
      (setTaskSpacePath q kinematics_pose path_time).run.2
        = .ok (decide (q.move_group_.planCode = MoveItErrorCode.SUCCESS)) ∧
      (setToolControl q tool_angle).run.2
        = .ok (decide (q.move_group2_.planCode = MoveItErrorCode.SUCCESS))) ∧
    (Call.plan ∈ (setJointSpacePath q joint_angle path_time).run.1 ∧
      Call.plan ∈ (setTaskSpacePath q kinematics_pose path_time).run.1 ∧
      Call.plan ∈ (setToolControl q tool_angle).run.1) ∧
    (executions (setJointSpacePath q joint_angle path_time).run.1
        = (if q.move_group_.planCode = MoveItErrorCode.SUCCESS then [Call.move] else []) ∧
      executions (setTaskSpacePath q kinematics_pose path_time).run.1
        = (if q.move_group_.planCode = MoveItErrorCode.SUCCESS then [Call.move] else []) ∧
      executions (setToolControl q tool_angle).run.1
        = (if q.move_group2_.planCode = MoveItErrorCode.SUCCESS then [Call.move] else [])) ∧
    ∀ c : MoveItErrorCode,
      (setJointSpacePath (withMoveCode q c) joint_angle path_time).run
        = (setJointSpacePath q joint_angle path_time).run ∧
      (setTaskSpacePath (withMoveCode q c) kinematics_pose path_time).run
        = (setTaskSpacePath q kinematics_pose path_time).run ∧
      (setToolControl (withMoveCode q c) tool_angle).run
        = (setToolControl q tool_angle).run := by
  obtain ⟨a0, a1, a2, a3, rest, rfl⟩ := exists_four joint_angle hj
  obtain ⟨x, y, z, rest2, rfl⟩ := exists_three kinematics_pose hk
  obtain ⟨g, rest3, rfl⟩ := exists_one tool_angle ht
  obtain ⟨c0, c1, c2, c3, crest, hc⟩ := exists_four _ harm
  obtain ⟨g0, grest, hg⟩ := exists_one _ hgrip
  have hc2 : ∀ c, (withMoveCode q c).move_group_.jointGroupPositions
      = c0 :: c1 :: c2 :: c3 :: crest := fun _ => hc
  have hg2 : ∀ c, (withMoveCode q c).move_group2_.jointGroupPositions
      = g0 :: grest := fun _ => hg
  rw [setJointSpacePath_run q a0 a1 a2 a3 rest path_time hc,
    setTaskSpacePath_run, setToolControl_run q g rest3 hg]
  refine ⟨⟨rfl, rfl, rfl⟩, ⟨by simp, by simp, by simp⟩, ⟨?_, ?_, ?_⟩, fun c => ⟨?_, ?_, ?_⟩⟩
  · by_cases h : q.move_group_.planCode = MoveItErrorCode.SUCCESS <;>
      simp [h, executions, Call.isExecution]
  · by_cases h : q.move_group_.planCode = MoveItErrorCode.SUCCESS <;>
      simp [h, executions, Call.isExecution]
  · by_cases h : q.move_group2_.planCode = MoveItErrorCode.SUCCESS <;>
      simp [h, executions, Call.isExecution]
  · rw [setJointSpacePath_run (withMoveCode q c) a0 a1 a2 a3 rest path_time (hc2 c)]; rfl
  · rw [setTaskSpacePath_run]; rfl
  · rw [setToolControl_run (withMoveCode q c) g rest3 (hg2 c)]; rfl

/-- C6 at a planner that reports success and an execution that answers the code -4
(control failed): all three commands still return true. -/
theorem commands_return_plan_success_witness :
    (setJointSpacePath (withMoveCode node_ones ⟨-4⟩) [1, 2, 3, 4] 0).run.2 = .ok true ∧
    (setTaskSpacePath (withMoveCode node_ones ⟨-4⟩) [1, 2, 3] 0).run.2 = .ok true ∧
    (setToolControl (withMoveCode node_ones ⟨-4⟩) [1]).run.2 = .ok true :=
  (commands_return_plan_success (withMoveCode node_ones ⟨-4⟩) [1, 2, 3, 4] [1, 2, 3] [1] 0
    (by decide) (by decide) (by decide) (by decide) (by decide)).1

/-- C7: for every current arm joint-position vector of length at least 4 and every input of
at least four joint angles, `setJointSpacePath` hands the planning library exactly one joint
target; it has the length of the current vector, its entries 0..3 are the first four input
angles, its other entries are the current positions, and the whole run is the same for every
duration. -/
theorem setJointSpacePath_target (q : QNode D P) (joint_angle : List D)
    (path_time path_time2 : D) (hcur : 4 ≤ q.move_group_.jointGroupPositions.length)
    (hlen : 4 ≤ joint_angle.length) :
    (∃ target : List D,
      jointTargets (setJointSpacePath q joint_angle path_time).run.1 = [target] ∧
      target.length = q.move_group_.jointGroupPositions.length ∧
      (∀ k : Nat, k < 4 → target[k]? = joint_angle[k]?) ∧
      (∀ k : Nat, 4 ≤ k → target[k]? = q.move_group_.jointGroupPositions[k]?)) ∧
    (setJointSpacePath q joint_angle path_time2).run
      = (setJointSpacePath q joint_angle path_time).run := by
  obtain ⟨a0, a1, a2, a3, rest, rfl⟩ := exists_four joint_angle hlen
  obtain ⟨c0, c1, c2, c3, crest, hc⟩ := exists_four _ hcur
  refine ⟨⟨a0 :: a1 :: a2 :: a3 :: crest, ?_, ?_, ?_, ?_⟩, ?_⟩
  · rw [setJointSpacePath_run q a0 a1 a2 a3 rest path_time hc]
    by_cases h : q.move_group_.planCode = MoveItErrorCode.SUCCESS <;>
      simp [jointTargets, h]
  · rw [hc]; simp
  · intro k hk
    match k, hk with
    | 0, _ => simp
    | 1, _ => simp
    | 2, _ => simp
    | 3, _ => simp
  · intro k hk
    obtain ⟨k1, rfl⟩ : ∃ k1, k = k1 + 4 := ⟨k - 4, by omega⟩
    rw [hc]
    simp
  · rw [setJointSpacePath_run q a0 a1 a2 a3 rest path_time hc,
      setJointSpacePath_run q a0 a1 a2 a3 rest path_time2 hc]

/-- C7 at the arm state `[10, 20, 30, 40, 50]` and the input `[1, 2, 3, 4]`. -/
theorem setJointSpacePath_target_witness :
    jointTargets (setJointSpacePath node_ones [1, 2, 3, 4] 0).run.1 = [[1, 2, 3, 4, 50]] ∧
    (setJointSpacePath node_ones [1, 2, 3, 4] 9).run
      = (setJointSpacePath node_ones [1, 2, 3, 4] 0).run :=
  ⟨rfl, (setJointSpacePath_target node_ones [1, 2, 3, 4] 0 9 (by decide) (by decide)).2⟩

/-- C8: for every input of at least three coordinates and every duration,
`setTaskSpacePath` sets the goal tolerance once, to 0.1, and submits one pose target, whose
position is the first three inputs and whose orientation is that of a default-constructed
pose; the whole run is the same for every duration. -/
theorem setTaskSpacePath_target [OfScientific D] (q : QNode D P) (kinematics_pose : List D)
    (path_time path_time2 : D) (hlen : 3 ≤ kinematics_pose.length) :
    goalTolerances (setTaskSpacePath q kinematics_pose path_time).run.1 = [0.1] ∧
    (∃ x y z : D, kinematics_pose[0]? = some x ∧ kinematics_pose[1]? = some y ∧
      kinematics_pose[2]? = some z ∧
      poseTargets (setTaskSpacePath q kinematics_pose path_time).run.1
        = [{ position := ⟨x, y, z⟩, orientation := (Pose.init : Pose D).orientation }]) ∧
    (setTaskSpacePath q kinematics_pose path_time2).run
      = (setTaskSpacePath q kinematics_pose path_time).run := by
  obtain ⟨x, y, z, rest, rfl⟩ := exists_three kinematics_pose hlen
  refine ⟨?_, ⟨x, y, z, by simp, by simp, by simp, ?_⟩, ?_⟩
  · rw [setTaskSpacePath_run]
    by_cases h : q.move_group_.planCode = MoveItErrorCode.SUCCESS <;>
      simp [goalTolerances, h]
  · rw [setTaskSpacePath_run]
    by_cases h : q.move_group_.planCode = MoveItErrorCode.SUCCESS <;>
      simp [poseTargets, h, Pose.init]
  · rw [setTaskSpacePath_run, setTaskSpacePath_run]

/-- C8 at the input `[1, 2, 3]` and the durations 0 and 9. -/
theorem setTaskSpacePath_target_witness :
    goalTolerances (setTaskSpacePath node_ones [1, 2, 3] 0).run.1 = [0.1] ∧
    (setTaskSpacePath node_ones [1, 2, 3] 9).run = (setTaskSpacePath node_ones [1, 2, 3] 0).run :=
  ⟨(setTaskSpacePath_target node_ones [1, 2, 3] 0 9 (by decide)).1,
    (setTaskSpacePath_target node_ones [1, 2, 3] 0 9 (by decide)).2.2⟩

/-- C10: for every input with fewer than four elements, over an arm group with at least as
many joints as the input has elements (where the unchecked writes made before the failing
read are defined; an arm group of four joints always is one), `setJointSpacePath` ends with
`std::out_of_range` (it returns neither true nor false), and the calls it has made by then
are the two `getCurrentState` queries: it sets no joint target, requests no plan and
executes no motion. -/
theorem setJointSpacePath_short_input (q : QNode D P) (joint_angle : List D) (path_time : D)
    (hlen : joint_angle.length < 4)
    (hcur : joint_angle.length ≤ q.move_group_.jointGroupPositions.length) :
    (setJointSpacePath q joint_angle path_time).run
      = ([.getCurrentState, .getCurrentState], .error (.threw .out_of_range)) ∧
    jointTargets (setJointSpacePath q joint_angle path_time).run.1 = [] ∧
    Call.plan ∉ (setJointSpacePath q joint_angle path_time).run.1 ∧
    executions (setJointSpacePath q joint_angle path_time).run.1 = [] := by
  rw [setJointSpacePath_run_short q joint_angle path_time hlen hcur]
  simp [jointTargets, executions, Call.isExecution]

/-- C10 at the three-element input `[1, 2, 3]` and the arm state `[10, 20, 30, 40, 50]`. -/
theorem setJointSpacePath_short_input_witness :
    (setJointSpacePath node_ones [1, 2, 3] 0).run
      = ([.getCurrentState, .getCurrentState], .error (.threw .out_of_range)) :=
  (setJointSpacePath_short_input node_ones [1, 2, 3] 0 (by decide) (by decide)).1

end CommandClaims

end turtlebot3_manipulation_gui
